import Mathlib

/-!
Verification of the request-processing core of a static file server
(`src/main.rs`, `src/error.rs`).

The embedding models:
* Unix paths as the server manipulates them through `std::path::PathBuf`
  (`components`, `push`, `pop`, `extension`, `set_extension`, `file_name`);
* `StaticServer::canonicalize` and the fallback logic in
  `StaticServer::spawn_read`;
* `read_file`, `content_type`, `translate_error`, and the dispatch in
  `StaticServer::call` / `ResponseFuture::poll`, composed into a single
  pure `handle` function.

External effects are parameters: the filesystem is a function from paths
to file contents or an I/O error, directory-existence is an oracle
`isDir`, flate2's gzip encoder is an arbitrary byte-transformer
`gzipFn`, and the mime crate's extension parser is `mimeParse`.
-/

/-- A component of a Unix path, as produced by Rust's
`std::path::Path::components` (the Windows `Prefix` variant cannot occur
on Unix paths). -/
inductive Component where
  | rootDir
  | curDir
  | parentDir
  | normal (s : String)
  deriving DecidableEq, Repr

/-- Model of `std::path::PathBuf` on Unix: an absolute-path flag plus the
list of remaining components (normal segments, possibly literal `..`
entries when the stored path contains them). -/
structure PathBuf where
  absolute : Bool
  comps : List String
  deriving DecidableEq, Repr

/-- `PathBuf::pop`: removes the last component; popping a bare root
(`/`) or an empty relative path is a no-op (Rust returns `false` and
leaves the buffer unchanged). -/
def PathBuf.pop (p : PathBuf) : PathBuf :=
  { p with comps := p.comps.dropLast }

/-- `PathBuf::push` of a single relative component (a normal segment
such as `"etc"` or `"index.html"`): appends it. Pushing an absolute
path is modelled where it occurs, in `canonicalize` (it replaces the
whole buffer, per Rust's documented `push` semantics). -/
def PathBuf.push (p : PathBuf) (s : String) : PathBuf :=
  { p with comps := p.comps ++ [s] }

/-- Split a character list on `'/'`, keeping empty segments. -/
def splitSlash : List Char → List (List Char)
  | [] => [[]]
  | c :: rest =>
    let r := splitSlash rest
    if c = '/' then [] :: r
    else
      match r with
      | [] => [[c]]
      | seg :: segs => (c :: seg) :: segs

/-- Map one non-empty, non-`"."` path segment to its component. -/
def segToComp (p : List Char) : Component :=
  if p = ['.', '.'] then .parentDir else .normal (String.mk p)

/-- Model of `Path::components()` for a Unix path string (given as its
character list): split on `/`, drop empty segments (repeated
separators, trailing separator), drop `"."` segments, emit a leading
`RootDir` when the string starts with `/`, and keep a leading `CurDir`
when a relative path starts with `./` (or is exactly `"."`). -/
def parseComponents (cs : List Char) : List Component :=
  let segs := (splitSlash cs).filter (fun p => p ≠ [] ∧ p ≠ ['.'])
  let body := segs.map segToComp
  if cs.head? = some '/' then .rootDir :: body
  else if cs = ['.'] ∨ cs.take 2 = ['.', '/'] then .curDir :: body
  else body

/-- `StaticServer::canonicalize` (main.rs lines 47–58): start from the
server root, then for each request component: `..` pops the buffer,
`.` is skipped, and anything else is pushed. A `RootDir` component's
`OsStr` is `"/"`, and pushing `"/"` replaces the buffer with the
absolute empty path. -/
def canonicalize (root : PathBuf) (comps : List Component) : PathBuf :=
  comps.foldl
    (fun canonical c =>
      match c with
      | .parentDir => canonical.pop
      | .curDir => canonical
      | .rootDir => ⟨true, []⟩
      | .normal s => canonical.push s)
    root

/-- `p` is at or below `root`: same absoluteness and `root`'s components
are an initial segment of `p`'s. -/
def isDescendant (root p : PathBuf) : Bool :=
  root.absolute == p.absolute && root.comps.isPrefixOf p.comps

/-- Split a file name at its last `.`, per Rust's `Path::extension` /
`file_stem` rules: returns `(stem, ext)` when the name has a `.` that is
not its leading character; `none` when the name has no `.`, or its only
`.` is leading (hidden files like `.gitignore` have no extension). -/
def splitAtLastDot (f : List Char) : Option (List Char × List Char) :=
  let r := f.reverse
  let extR := r.takeWhile (fun c => c ≠ '.')
  match r.dropWhile (fun c => c ≠ '.') with
  | [] => none
  | _ :: stemR => if stemR = [] then none else some (stemR.reverse, extR.reverse)

/-- `Path::file_name`: the last component, unless the path has none or
ends in `..`. -/
def PathBuf.fileName (p : PathBuf) : Option String :=
  match p.comps.getLast? with
  | none => none
  | some s => if s = ".." then none else some s

/-- `Path::extension`: the extension of the file name, when both exist. -/
def PathBuf.extension (p : PathBuf) : Option String :=
  p.fileName.bind fun f => (splitAtLastDot f.data).map fun pr => String.mk pr.2

/-- `PathBuf::set_extension e`: a no-op when the path has no file name;
otherwise replaces the file name's extension (appending `.e` when the
name has none). -/
def PathBuf.setExt (p : PathBuf) (e : String) : PathBuf :=
  match p.fileName with
  | none => p
  | some f =>
    let stem := match splitAtLastDot f.data with
      | some pr => String.mk pr.1
      | none => f
    { p with comps := p.comps.dropLast ++ [stem ++ "." ++ e] }

/-- The path computation of `StaticServer::spawn_read` (main.rs lines
36–45): canonicalize, then append `index.html` when the result is an
existing directory, then set the `html` extension when the result has
no extension. `isDir` is the filesystem's directory-existence oracle. -/
def resolvePath (isDir : PathBuf → Bool) (root : PathBuf) (comps : List Component) :
    PathBuf :=
  let c1 := canonicalize root comps
  let c2 := if isDir c1 then c1.push "index.html" else c1
  if c2.extension.isNone then c2.setExt "html" else c2

/-- The kind of a `std::io::Error`; the server only ever distinguishes
`NotFound` from everything else. -/
inductive IoErrorKind where
  | notFound
  | permissionDenied
  | other
  deriving DecidableEq, Repr

/-- Model of `std::io::Error`: a kind plus a display message. -/
structure IoError where
  kind : IoErrorKind
  msg : String
  deriving DecidableEq, Repr

/-- The `Error` enum of `src/error.rs`. Hyper and I/O error payloads are
kept as display strings. -/
inductive Error where
  | hyper (e : String)
  | io (e : String)
  | msg (s : String)
  | fileNotFound
  deriving DecidableEq, Repr

/-- `From<std::io::Error> for Error` (error.rs lines 34–43): a
`NotFound` kind becomes `Error::FileNotFound`; every other kind becomes
`Error::Io`. -/
def Error.fromIo (e : IoError) : Error :=
  if e.kind = IoErrorKind.notFound then Error.fileNotFound else Error.io e.msg

/-- A hyper `Response` as the server builds it: status code, the typed
headers it may set (`ContentLength`, `ContentType`,
`ContentEncoding(vec![Gzip])`), and the body bytes (bytes as `Nat`). -/
structure HttpResponse where
  status : Nat
  contentLength : Option Nat
  contentType : Option String
  contentEncodingGzip : Bool
  body : List Nat
  deriving DecidableEq, Repr

/-- `Response::new()`: status 200, no headers, empty body. -/
def Response.new : HttpResponse :=
  { status := 200, contentLength := none, contentType := none,
    contentEncodingGzip := false, body := [] }

/-- `content_type` (main.rs lines 96–112): extension-to-MIME table,
falling back to parsing the extension itself as a MIME type via the
`mime` crate, modelled by the parameter `mimeParse`. -/
def content_type (mimeParse : String → Option String) (path : PathBuf) :
    Option String :=
  match path.extension with
  | none => none
  | some ext =>
    if ext = "jpg" ∨ ext = "jpeg" then some "image/jpeg"
    else if ext = "png" then some "image/png"
    else if ext = "txt" ∨ ext = "md" then some "text/plain"
    else if ext = "html" then some "text/html"
    else if ext = "xml" then some "application/xml"
    else if ext = "json" then some "application/json"
    else if ext = "gif" then some "image/gif"
    else if ext = "css" then some "text/css"
    else mimeParse ext

/-- `MIN_GZIP_SIZE` (main.rs line 61). -/
def MIN_GZIP_SIZE : Nat := 1024

/-- `read_file` (main.rs lines 63–94). The filesystem `fs` returns a
file's bytes or an `std::io::Error` (converted through `?` /
`Error.fromIo`); `metadata().len()` is the byte length of the contents;
`read_to_end` reads to end-of-file. Gzip is applied when the client
accepts it and the length strictly exceeds `MIN_GZIP_SIZE`; the gzip
encoder (flate2) is the parameter `gzipFn`. The response carries the
body, always a `ContentLength` equal to the metadata length, a
`ContentType` when one resolves, and `ContentEncoding: gzip` when gzip
was applied. -/
def read_file (fs : PathBuf → Except IoError (List Nat))
    (gzipFn : List Nat → List Nat) (mimeParse : String → Option String)
    (canonical : PathBuf) (accept_gzip : Bool) : Except Error HttpResponse :=
  match fs canonical with
  | .error e => .error (Error.fromIo e)
  | .ok contents =>
    let len := contents.length
    let gzip := accept_gzip && decide (len > MIN_GZIP_SIZE)
    let body := if gzip then gzipFn contents else contents
    .ok { status := 200
          contentLength := some len
          contentType := content_type mimeParse canonical
          contentEncodingGzip := gzip
          body := body }

/-- `translate_error` (main.rs lines 162–171): a hyper error is
propagated (`Err`); `FileNotFound` becomes a 404 response; every other
error is logged and becomes a 500 response. Neither response carries a
body or headers. -/
def translate_error (err : Error) : Except String HttpResponse :=
  match err with
  | .hyper e => .error e
  | .fileNotFound => .ok { Response.new with status := 404 }
  | _ => .ok { Response.new with status := 500 }

/-- HTTP request method. -/
inductive Method where
  | get
  | post
  | put
  | delete
  | head
  | options
  deriving DecidableEq, Repr

/-- A hyper `Encoding` value appearing in `Accept-Encoding`. -/
inductive Encoding where
  | gzip
  | deflate
  | identity
  | other (s : String)
  deriving DecidableEq, Repr

/-- A hyper `QualityItem<Encoding>`: the encoding together with its
quality value (q-value scaled to 0–1000; `q=0` is quality 0). -/
structure QualityItem where
  item : Encoding
  quality : Nat
  deriving DecidableEq, Repr

/-- An incoming request: method, URL path (always beginning with `/`
for origin-form requests), and the parsed `Accept-Encoding` header when
present. -/
structure HttpRequest where
  method : Method
  path : String
  acceptEncoding : Option (List QualityItem)
  deriving DecidableEq, Repr

/-- Gzip eligibility in `StaticServer::call` (main.rs lines 188–191):
true when any `Accept-Encoding` entry's item equals `gzip` — the
quality value is never consulted; false when the header is absent. -/
def gzipAccepted (req : HttpRequest) : Bool :=
  match req.acceptEncoding with
  | some es => es.any fun q => q.item == Encoding.gzip
  | none => false

/-- The full request pipeline: `StaticServer::call` (method check, strip
of the leading path byte, gzip eligibility), `spawn_read` /
`resolvePath`, `read_file` on the worker pool, and
`ResponseFuture::poll`'s `translate_error` on failure. A non-GET method
short-circuits to a bare 405 response. A hyper error surfaces as
`.error` (propagated, not translated). -/
def handle (fs : PathBuf → Except IoError (List Nat)) (isDir : PathBuf → Bool)
    (gzipFn : List Nat → List Nat) (mimeParse : String → Option String)
    (root : PathBuf) (req : HttpRequest) : Except String HttpResponse :=
  if req.method ≠ Method.get then
    .ok { Response.new with status := 405 }
  else
    let comps := parseComponents (req.path.data.drop 1)
    let gzip := gzipAccepted req
    match read_file fs gzipFn mimeParse (resolvePath isDir root comps) gzip with
    | .ok resp => .ok resp
    | .error e => translate_error e

example : splitAtLastDot "foo.tar.gz".data = some ("foo.tar".data, "gz".data) := by decide

example : splitAtLastDot ".gitignore".data = none := by decide

example : splitAtLastDot "foo.".data = some ("foo".data, []) := by decide

example : PathBuf.setExt ⟨true, ["a", "readme"]⟩ "html" = ⟨true, ["a", "readme.html"]⟩ := by
  decide

example : canonicalize ⟨true, ["srv", "public"]⟩ (parseComponents "a/b".data) =
    ⟨true, ["srv", "public", "a", "b"]⟩ := by decide

example : canonicalize ⟨true, ["srv", "public"]⟩ (parseComponents "../../etc/passwd".data) =
    ⟨true, ["etc", "passwd"]⟩ := by decide

example : parseComponents "/etc/passwd".data =
    [.rootDir, .normal "etc", .normal "passwd"] := by decide

example : parseComponents "a//b/./c/".data =
    [.normal "a", .normal "b", .normal "c"] := by decide

/-- Folding a `RootDir` component replaces the whole buffer (Rust's
`push("/")` semantics). -/
theorem canonicalize_rootDir_cons (p : PathBuf) (l : List Component) :
    canonicalize p (.rootDir :: l) = canonicalize ⟨true, []⟩ l := rfl

/-- `canonicalize` keeps an absolute buffer absolute: every step (pop,
skip, root replacement, push) preserves or sets the flag. -/
theorem canonicalize_absolute (l : List Component) (p : PathBuf)
    (h : p.absolute = true) : (canonicalize p l).absolute = true := by
  induction l generalizing p with
  | nil => exact h
  | cons c t ih =>
    cases c with
    | rootDir => exact ih _ rfl
    | curDir => exact ih _ h
    | parentDir => exact ih _ h
    | normal s => exact ih _ h

/-- A file name without a `.` splits to no extension. -/
theorem splitAtLastDot_of_no_dot (cs : List Char) (h : '.' ∉ cs) :
    splitAtLastDot cs = none := by
  have hd : cs.reverse.dropWhile (fun c => c ≠ '.') = [] := by
    rw [List.dropWhile_eq_nil_iff]
    intro x hx
    simp only [List.mem_reverse] at hx
    simp only [ne_eq, decide_not, Bool.not_eq_true', decide_eq_false_iff_not]
    exact fun heq => h (heq ▸ hx)
  simp only [splitAtLastDot]
  rw [hd]

/-- C1: the spec claims `..` pops only request-path components and can
never remove components of the root, so the resolved path stays at or
below the root. The code violates this: `canonicalize` pops directly
off the buffer initialized to the root, so with root `/srv/public` the
request path `../../etc/passwd` resolves to `/etc/passwd`, outside the
root. -/
theorem canonicalize_escapes_root_concrete :
    canonicalize ⟨true, ["srv", "public"]⟩ (parseComponents "../../etc/passwd".data) =
      ⟨true, ["etc", "passwd"]⟩ ∧
    isDescendant ⟨true, ["srv", "public"]⟩
      (canonicalize ⟨true, ["srv", "public"]⟩
        (parseComponents "../../etc/passwd".data)) = false := by
  decide

/-- C2: when the request URL path begins with two separators, the
handler strips exactly the first character, leaving an absolute path;
its `RootDir` component replaces the accumulated buffer inside
`canonicalize`, so the resolved path is the absolute remainder of the
request path, independent of the configured root (here witnessed by
comparing any root against the empty relative root). -/
theorem canonicalize_double_separator_root_independent (root : PathBuf)
    (cs : List Char) (h : cs.take 2 = ['/', '/']) :
    canonicalize root (parseComponents (cs.drop 1)) =
      canonicalize ⟨false, []⟩ (parseComponents (cs.drop 1)) ∧
    (canonicalize root (parseComponents (cs.drop 1))).absolute = true := by
  obtain ⟨rest, rfl⟩ : ∃ rest, cs = '/' :: '/' :: rest := by
    cases cs with
    | nil => simp at h
    | cons a t =>
      cases t with
      | nil => simp at h
      | cons b r =>
        simp [List.take] at h
        obtain ⟨h1, h2⟩ := h
        subst h1; subst h2
        exact ⟨r, rfl⟩
  have hp : parseComponents (('/' :: '/' :: rest).drop 1) =
      .rootDir :: ((splitSlash ('/' :: rest)).filter
        (fun p => p ≠ [] ∧ p ≠ ['.'])).map segToComp := by
    simp [parseComponents]
  rw [hp, canonicalize_rootDir_cons, canonicalize_rootDir_cons]
  exact ⟨rfl, canonicalize_absolute _ _ rfl⟩

/-- Closed instance of `canonicalize_double_separator_root_independent`:
the request path `//etc/passwd` resolves to `/etc/passwd` under root
`/srv/public` and equally under the empty root. -/
theorem canonicalize_double_separator_root_independent_witness :
    "//etc/passwd".data.take 2 = ['/', '/'] ∧
    canonicalize ⟨true, ["srv", "public"]⟩
        (parseComponents ("//etc/passwd".data.drop 1)) =
      canonicalize ⟨false, []⟩ (parseComponents ("//etc/passwd".data.drop 1)) ∧
    canonicalize ⟨true, ["srv", "public"]⟩
        (parseComponents ("//etc/passwd".data.drop 1)) = ⟨true, ["etc", "passwd"]⟩ :=
  ⟨by decide,
   (canonicalize_double_separator_root_independent ⟨true, ["srv", "public"]⟩
     "//etc/passwd".data (by decide)).1,
   by decide⟩


/-- C3: when gzip compression is applied, the emitted `Content-Length`
equals the file's original uncompressed length as reported by metadata,
while the body holds the compressed bytes produced by the encoder. -/
theorem read_file_gzip_length_is_uncompressed
    (fs : PathBuf → Except IoError (List Nat)) (gzipFn : List Nat → List Nat)
    (mimeParse : String → Option String) (canonical : PathBuf)
    (contents : List Nat) (hfs : fs canonical = .ok contents)
    (hlen : contents.length > MIN_GZIP_SIZE) :
    read_file fs gzipFn mimeParse canonical true =
      .ok { status := 200
            contentLength := some contents.length
            contentType := content_type mimeParse canonical
            contentEncodingGzip := true
            body := gzipFn contents } := by
  simp [read_file, hfs, hlen]

/-- Closed instance of `read_file_gzip_length_is_uncompressed`: a
1025-byte file compressed to a 3-byte body still reports
`Content-Length: 1025`, which differs from the body length. -/
theorem read_file_gzip_length_is_uncompressed_witness :
    ((fun _ : PathBuf =>
        (.ok (List.replicate (MIN_GZIP_SIZE + 1) 0) : Except IoError (List Nat)))
        ⟨true, ["f"]⟩ = .ok (List.replicate (MIN_GZIP_SIZE + 1) 0)) ∧
    (List.replicate (MIN_GZIP_SIZE + 1) (0 : Nat)).length > MIN_GZIP_SIZE ∧
    read_file (fun _ => .ok (List.replicate (MIN_GZIP_SIZE + 1) 0))
        (fun _ => [7, 7, 7]) (fun _ => none) ⟨true, ["f"]⟩ true =
      .ok { status := 200
            contentLength := some (List.replicate (MIN_GZIP_SIZE + 1) (0 : Nat)).length
            contentType := none
            contentEncodingGzip := true
            body := [7, 7, 7] } ∧
    some (List.replicate (MIN_GZIP_SIZE + 1) (0 : Nat)).length ≠
      some ([7, 7, 7] : List Nat).length :=
  ⟨rfl,
   by rw [List.length_replicate]; exact Nat.lt_succ_self _,
   by
    have h := read_file_gzip_length_is_uncompressed
      (fun _ => .ok (List.replicate (MIN_GZIP_SIZE + 1) 0)) (fun _ => [7, 7, 7])
      (fun _ => none) ⟨true, ["f"]⟩ (List.replicate (MIN_GZIP_SIZE + 1) 0) rfl
      (by rw [List.length_replicate]; exact Nat.lt_succ_self _)
    simpa [content_type] using h,
   by rw [List.length_replicate]; simp [MIN_GZIP_SIZE]⟩

/-- C4: gzip is applied to the body (and announced in the headers) iff
the client accepted gzip and the uncompressed metadata length strictly
exceeds 1024 bytes; for lengths ≤ 1024 the body is the raw contents
even when gzip was accepted, and an absent `Accept-Encoding` header
never yields gzip eligibility. -/
theorem read_file_gzip_applied_iff
    (fs : PathBuf → Except IoError (List Nat)) (gzipFn : List Nat → List Nat)
    (mimeParse : String → Option String) (canonical : PathBuf)
    (ag : Bool) (contents : List Nat) (hfs : fs canonical = .ok contents) :
    (read_file fs gzipFn mimeParse canonical ag =
      .ok { status := 200
            contentLength := some contents.length
            contentType := content_type mimeParse canonical
            contentEncodingGzip := ag && decide (contents.length > MIN_GZIP_SIZE)
            body := if ag && decide (contents.length > MIN_GZIP_SIZE) then
                gzipFn contents
              else contents }) ∧
    (contents.length ≤ MIN_GZIP_SIZE →
      read_file fs gzipFn mimeParse canonical ag =
        .ok { status := 200
              contentLength := some contents.length
              contentType := content_type mimeParse canonical
              contentEncodingGzip := false
              body := contents }) ∧
    (∀ req : HttpRequest, req.acceptEncoding = none → gzipAccepted req = false) := by
  refine ⟨by simp [read_file, hfs], ?_, ?_⟩
  · intro hle
    have hng : ¬ contents.length > MIN_GZIP_SIZE := Nat.not_lt.mpr hle
    simp [read_file, hfs, hng]
  · intro req hae
    simp [gzipAccepted, hae]

/-- Closed instance of `read_file_gzip_applied_iff`: a 3-byte file with
gzip accepted is served raw without the gzip header, and a request with
no `Accept-Encoding` header is not gzip-eligible. -/
theorem read_file_gzip_applied_iff_witness :
    read_file (fun _ => .ok [1, 2, 3]) (fun _ => [9]) (fun _ => none)
        ⟨true, ["f"]⟩ true =
      .ok { status := 200
            contentLength := some 3
            contentType := none
            contentEncodingGzip := false
            body := [1, 2, 3] } ∧
    gzipAccepted ⟨Method.get, "/f", none⟩ = false := by
  have h := read_file_gzip_applied_iff (fun _ => .ok [1, 2, 3]) (fun _ => [9])
    (fun _ => none) ⟨true, ["f"]⟩ true [1, 2, 3] rfl
  exact ⟨by simpa [content_type] using h.2.1 (by decide),
    h.2.2 ⟨Method.get, "/f", none⟩ rfl⟩

/-- C5 fails as stated: the `MethodNotAllowed` outcome (and likewise the
404/500 outcomes built from `Response::new()`) carries no
`Content-Length` header at all, so not every outcome's headers include a
`Content-Length` equal to the body length. Concrete refutation: a POST
request yields the 405 response whose `contentLength` is `none`. -/
theorem handle_405_no_content_length :
    handle (fun _ => .error ⟨IoErrorKind.notFound, ""⟩) (fun _ => false)
        (fun b => b) (fun _ => none) ⟨true, ["srv", "public"]⟩
        ⟨Method.post, "/etc/passwd", none⟩ =
      .ok { status := 405, contentLength := none, contentType := none,
            contentEncodingGzip := false, body := [] } ∧
    ({ status := 405, contentLength := none, contentType := none,
       contentEncodingGzip := false, body := [] } : HttpResponse).contentLength =
      none := ⟨rfl, rfl⟩

/-- C5 amended: a successful `read_file` response carries
`Content-Length` equal to the uncompressed metadata length (equal to
the body length exactly when gzip was not applied), a `Content-Type`
exactly when one resolves, and the gzip `Content-Encoding` flag exactly
per the gzip rule; the 404/500 responses from `translate_error` and the
405 response carry no `Content-Length`, no `Content-Type`, no
`Content-Encoding`, and an empty body. -/
theorem response_header_discipline :
    (∀ (fs : PathBuf → Except IoError (List Nat))
       (gzipFn : List Nat → List Nat) (mimeParse : String → Option String)
       (canonical : PathBuf) (ag : Bool) (contents : List Nat)
       (resp : HttpResponse),
       fs canonical = .ok contents →
       read_file fs gzipFn mimeParse canonical ag = .ok resp →
         resp.contentLength = some contents.length ∧
         resp.contentType = content_type mimeParse canonical ∧
         resp.contentEncodingGzip = (ag && decide (contents.length > MIN_GZIP_SIZE)) ∧
         (resp.contentEncodingGzip = false →
           resp.body = contents ∧ resp.contentLength = some resp.body.length)) ∧
    (∀ (e : Error) (resp : HttpResponse), translate_error e = .ok resp →
       resp.contentLength = none ∧ resp.contentType = none ∧
       resp.contentEncodingGzip = false ∧ resp.body = []) ∧
    (∀ (fs : PathBuf → Except IoError (List Nat)) (isDir : PathBuf → Bool)
       (gzipFn : List Nat → List Nat) (mimeParse : String → Option String)
       (root : PathBuf) (req : HttpRequest),
       req.method ≠ Method.get →
       handle fs isDir gzipFn mimeParse root req =
         .ok { status := 405, contentLength := none, contentType := none,
               contentEncodingGzip := false, body := [] }) := by
  refine ⟨?_, ?_, ?_⟩
  · intro fs gzipFn mimeParse canonical ag contents resp hfs hr
    simp only [read_file, hfs] at hr
    injection hr with hr
    subst hr
    refine ⟨rfl, rfl, rfl, ?_⟩
    intro hflag
    simp only at hflag
    simp [hflag]
  · intro e resp h
    cases e with
    | hyper s => exact Except.noConfusion h
    | io s =>
      simp only [translate_error] at h
      injection h with h
      subst h
      exact ⟨rfl, rfl, rfl, rfl⟩
    | msg s =>
      simp only [translate_error] at h
      injection h with h
      subst h
      exact ⟨rfl, rfl, rfl, rfl⟩
    | fileNotFound =>
      simp only [translate_error] at h
      injection h with h
      subst h
      exact ⟨rfl, rfl, rfl, rfl⟩
  · intro fs isDir gzipFn mimeParse root req h
    simp [handle, h, Response.new]

/-- Closed instance of `response_header_discipline`: a 3-byte file
served raw, the 404 response, and a PUT request's 405 response. -/
theorem response_header_discipline_witness :
    (({ status := 200, contentLength := some 3, contentType := none,
        contentEncodingGzip := false, body := [1, 2, 3] } : HttpResponse).contentLength =
        some ([1, 2, 3] : List Nat).length ∧
      ({ status := 200, contentLength := some 3, contentType := none,
         contentEncodingGzip := false, body := [1, 2, 3] } : HttpResponse).contentType =
        content_type (fun _ => none) ⟨true, ["f"]⟩ ∧
      ({ status := 200, contentLength := some 3, contentType := none,
         contentEncodingGzip := false, body := [1, 2, 3] } : HttpResponse).contentEncodingGzip =
        (false && decide (([1, 2, 3] : List Nat).length > MIN_GZIP_SIZE)) ∧
      (({ status := 200, contentLength := some 3, contentType := none,
          contentEncodingGzip := false, body := [1, 2, 3] } : HttpResponse).contentEncodingGzip =
            false →
        ({ status := 200, contentLength := some 3, contentType := none,
           contentEncodingGzip := false, body := [1, 2, 3] } : HttpResponse).body = [1, 2, 3] ∧
        ({ status := 200, contentLength := some 3, contentType := none,
           contentEncodingGzip := false, body := [1, 2, 3] } : HttpResponse).contentLength =
          some ({ status := 200, contentLength := some 3, contentType := none,
                  contentEncodingGzip := false,
                  body := [1, 2, 3] } : HttpResponse).body.length)) ∧
    (({ Response.new with status := 404 } : HttpResponse).contentLength = none ∧
      ({ Response.new with status := 404 } : HttpResponse).contentType = none ∧
      ({ Response.new with status := 404 } : HttpResponse).contentEncodingGzip = false ∧
      ({ Response.new with status := 404 } : HttpResponse).body = []) ∧
    handle (fun _ => .error ⟨IoErrorKind.notFound, ""⟩) (fun _ => false)
        (fun b => b) (fun _ => none) ⟨true, []⟩ ⟨Method.put, "/x", none⟩ =
      .ok { status := 405, contentLength := none, contentType := none,
            contentEncodingGzip := false, body := [] } :=
  ⟨response_header_discipline.1 (fun _ => .ok [1, 2, 3]) (fun b => b)
      (fun _ => none) ⟨true, ["f"]⟩ false [1, 2, 3] _ rfl rfl,
   response_header_discipline.2.1 Error.fileNotFound _ rfl,
   response_header_discipline.2.2 (fun _ => .error ⟨IoErrorKind.notFound, ""⟩)
      (fun _ => false) (fun b => b) (fun _ => none) ⟨true, []⟩
      ⟨Method.put, "/x", none⟩ (by decide)⟩

/-- C6: `translate_error` maps `FileNotFound` to a bodyless 404, every
other application-level error (`Io`, `Msg`) to a bodyless 500 that
never carries the cause, and propagates a hyper transport error
unchanged as `Err`; `From<io::Error>` sends the `NotFound` kind to
`FileNotFound` and every other kind to `Io`. -/
theorem translate_error_taxonomy (s t : String) :
    translate_error (Error.hyper t) = .error t ∧
    translate_error Error.fileNotFound = .ok { Response.new with status := 404 } ∧
    translate_error (Error.io s) = .ok { Response.new with status := 500 } ∧
    translate_error (Error.msg s) = .ok { Response.new with status := 500 } ∧
    ({ Response.new with status := 500 } : HttpResponse).body = [] ∧
    Error.fromIo ⟨IoErrorKind.notFound, s⟩ = Error.fileNotFound ∧
    (∀ k, k ≠ IoErrorKind.notFound → Error.fromIo ⟨k, s⟩ = Error.io s) := by
  refine ⟨rfl, rfl, rfl, rfl, rfl, rfl, ?_⟩
  intro k hk
  simp [Error.fromIo, hk]

/-- Closed instance of `translate_error_taxonomy`. -/
theorem translate_error_taxonomy_witness :
    translate_error (Error.hyper "connection reset") = .error "connection reset" ∧
    Error.fromIo ⟨IoErrorKind.other, "disk failure"⟩ = Error.io "disk failure" :=
  ⟨(translate_error_taxonomy "disk failure" "connection reset").1,
   (translate_error_taxonomy "disk failure" "connection reset").2.2.2.2.2.2
     IoErrorKind.other (by decide)⟩

/-- Pushing a normal segment makes it the file name (unless it is
`".."`). -/
theorem fileName_push (p : PathBuf) (s : String) :
    (p.push s).fileName = if s = ".." then none else some s := by
  simp [PathBuf.push, PathBuf.fileName, List.getLast?_concat]

/-- `index.html` pushed onto any path yields extension `html`. -/
theorem extension_push_index (p : PathBuf) :
    (p.push "index.html").extension = some "html" := by
  rw [PathBuf.extension, fileName_push]
  decide

/-- Appending `"."` then `"html"` is appending `".html"`. -/
theorem append_dot_html (s : String) : s ++ "." ++ "html" = s ++ ".html" := by
  apply String.ext
  simp [String.data_append]

/-- C7: after canonicalization, an existing directory gets `index.html`
appended (and, having an extension, is not further modified), while a
non-directory whose final segment contains no `.` gains a `.html`
suffix on that segment. -/
theorem resolvePath_fallbacks (root : PathBuf) (isDir : PathBuf → Bool)
    (comps : List Component) :
    (isDir (canonicalize root comps) = true →
      resolvePath isDir root comps = (canonicalize root comps).push "index.html") ∧
    (∀ s : String, isDir (canonicalize root comps) = false →
      (canonicalize root comps).comps.getLast? = some s →
      '.' ∉ s.data →
      resolvePath isDir root comps =
        { absolute := (canonicalize root comps).absolute,
          comps := (canonicalize root comps).comps.dropLast ++ [s ++ ".html"] }) := by
  constructor
  · intro h
    have hext := extension_push_index (canonicalize root comps)
    simp [resolvePath, h, hext]
  · intro s h1 h2 h3
    have hne : s ≠ ".." := by
      intro e
      exact h3 (e ▸ (by decide : '.' ∈ ("..".data)))
    have hfn : (canonicalize root comps).fileName = some s := by
      simp [PathBuf.fileName, h2, hne]
    have hsplit := splitAtLastDot_of_no_dot s.data h3
    have hex : (canonicalize root comps).extension = none := by
      simp [PathBuf.extension, hfn, hsplit]
    simp [resolvePath, h1, hex, PathBuf.setExt, hfn, hsplit, append_dot_html]

/-- Closed instance of `resolvePath_fallbacks`: under root `/r`, the
directory request `d` resolves to `/r/d/index.html`, and the
extensionless file request `about` resolves to `/r/about.html`. -/
theorem resolvePath_fallbacks_witness :
    resolvePath (fun p => p == ⟨true, ["r", "d"]⟩) ⟨true, ["r"]⟩
        [Component.normal "d"] = ⟨true, ["r", "d", "index.html"]⟩ ∧
    resolvePath (fun _ => false) ⟨true, ["r"]⟩ [Component.normal "about"] =
      ⟨true, ["r", "about.html"]⟩ := by
  constructor
  · have h := (resolvePath_fallbacks ⟨true, ["r"]⟩
      (fun p => p == ⟨true, ["r", "d"]⟩) [Component.normal "d"]).1 (by decide)
    rw [h]
    decide
  · have h := (resolvePath_fallbacks ⟨true, ["r"]⟩ (fun _ => false)
      [Component.normal "about"]).2 "about" rfl (by decide) (by decide)
    rw [h]
    decide

/-- C8: a non-GET request yields the bare 405 response with an empty
body; the outcome is a constant, independent of the request path, the
root, and the filesystem (no resolution or file access influences it). -/
theorem handle_non_get_405 (fs : PathBuf → Except IoError (List Nat))
    (isDir : PathBuf → Bool) (gzipFn : List Nat → List Nat)
    (mimeParse : String → Option String) (root : PathBuf) (req : HttpRequest)
    (h : req.method ≠ Method.get) :
    handle fs isDir gzipFn mimeParse root req =
      .ok { status := 405, contentLength := none, contentType := none,
            contentEncodingGzip := false, body := [] } ∧
    (∀ (fs' : PathBuf → Except IoError (List Nat)) (isDir' : PathBuf → Bool)
       (gzipFn' : List Nat → List Nat) (mimeParse' : String → Option String)
       (root' : PathBuf) (req' : HttpRequest), req'.method = req.method →
       handle fs' isDir' gzipFn' mimeParse' root' req' =
         handle fs isDir gzipFn mimeParse root req) := by
  have h1 : handle fs isDir gzipFn mimeParse root req =
      .ok { status := 405, contentLength := none, contentType := none,
            contentEncodingGzip := false, body := [] } := by
    simp [handle, h, Response.new]
  refine ⟨h1, ?_⟩
  intro fs' isDir' gzipFn' mimeParse' root' req' hm
  rw [h1]
  simp [handle, hm ▸ h, Response.new]

/-- Closed instance of `handle_non_get_405`: a POST to `/anything`
yields 405 regardless of a filesystem where every file exists, and a
POST to a different path against a different root agrees with it. -/
theorem handle_non_get_405_witness :
    handle (fun _ => .ok [1]) (fun _ => true) (fun b => b) (fun _ => none)
        ⟨true, ["a"]⟩ ⟨Method.post, "/anything", none⟩ =
      .ok { status := 405, contentLength := none, contentType := none,
            contentEncodingGzip := false, body := [] } ∧
    handle (fun _ => .error ⟨IoErrorKind.other, "x"⟩) (fun _ => false)
        (fun _ => []) (fun _ => some "text/html") ⟨false, []⟩
        ⟨Method.post, "/other/../path", some [⟨Encoding.gzip, 1000⟩]⟩ =
      handle (fun _ => .ok [1]) (fun _ => true) (fun b => b) (fun _ => none)
        ⟨true, ["a"]⟩ ⟨Method.post, "/anything", none⟩ := by
  have h := handle_non_get_405 (fun _ => .ok [1]) (fun _ => true) (fun b => b)
    (fun _ => none) ⟨true, ["a"]⟩ ⟨Method.post, "/anything", none⟩ (by decide)
  exact ⟨h.1, h.2 _ _ _ _ _ _ rfl⟩

/-- C9: a GET whose canonical path is not a directory and already has an
extension (so neither the `index.html` nor the `.html` fallback fires),
whose file exists, and for which gzip is not in play (not accepted, or
the file is ≤ 1024 bytes) is served with a body byte-for-byte equal to
the file's contents on disk. -/
theorem handle_uncompressed_body_identity
    (fs : PathBuf → Except IoError (List Nat)) (isDir : PathBuf → Bool)
    (gzipFn : List Nat → List Nat) (mimeParse : String → Option String)
    (root : PathBuf) (req : HttpRequest) (contents : List Nat)
    (hget : req.method = Method.get)
    (hnd : isDir (canonicalize root (parseComponents (req.path.data.drop 1))) = false)
    (hext : (canonicalize root
      (parseComponents (req.path.data.drop 1))).extension ≠ none)
    (hfs : fs (canonicalize root (parseComponents (req.path.data.drop 1))) =
      .ok contents)
    (hng : gzipAccepted req = false ∨ contents.length ≤ MIN_GZIP_SIZE) :
    handle fs isDir gzipFn mimeParse root req =
      .ok { status := 200
            contentLength := some contents.length
            contentType := content_type mimeParse
              (canonicalize root (parseComponents (req.path.data.drop 1)))
            contentEncodingGzip := false
            body := contents } := by
  simp only [List.drop_one] at hnd hext hfs ⊢
  have hres : resolvePath isDir root (parseComponents req.path.data.tail) =
      canonicalize root (parseComponents req.path.data.tail) := by
    simp [resolvePath, hnd, hext]
  rcases hng with h | h
  · simp [handle, hget, hres, read_file, hfs, h]
  · have h' : ¬ (MIN_GZIP_SIZE < contents.length) := Nat.not_lt.mpr h
    simp [handle, hget, hres, read_file, hfs, h']

/-- Closed instance of `handle_uncompressed_body_identity`: the file
`/r/a.txt` holding bytes `[1, 2, 3]` is served byte-identically. -/
theorem handle_uncompressed_body_identity_witness :
    handle
        (fun p => if p = ⟨true, ["r", "a.txt"]⟩ then .ok [1, 2, 3]
          else .error ⟨IoErrorKind.notFound, ""⟩)
        (fun _ => false) (fun _ => [9, 9]) (fun _ => none) ⟨true, ["r"]⟩
        ⟨Method.get, "/a.txt", none⟩ =
      .ok { status := 200
            contentLength := some ([1, 2, 3] : List Nat).length
            contentType := content_type (fun _ => none)
              (canonicalize ⟨true, ["r"]⟩
                (parseComponents (("/a.txt" : String).data.drop 1)))
            contentEncodingGzip := false
            body := [1, 2, 3] } := by
  exact handle_uncompressed_body_identity
    (fun p => if p = ⟨true, ["r", "a.txt"]⟩ then .ok [1, 2, 3]
      else .error ⟨IoErrorKind.notFound, ""⟩)
    (fun _ => false) (fun _ => [9, 9]) (fun _ => none) ⟨true, ["r"]⟩
    ⟨Method.get, "/a.txt", none⟩ [1, 2, 3] rfl rfl (by decide) rfl
    (Or.inl rfl)

/-- C10: gzip eligibility inspects only whether some `Accept-Encoding`
entry's item equals `gzip` and never consults the quality value; in
particular `Accept-Encoding: gzip;q=0` (an explicit refusal) still
counts as accepting gzip, and a file larger than 1024 bytes is then
served gzip-compressed. -/
theorem gzip_accept_ignores_quality :
    (∀ (m : Method) (p : String) (items : List QualityItem),
      gzipAccepted ⟨m, p, some items⟩ =
        items.any (fun q => q.item == Encoding.gzip)) ∧
    (∀ (fs : PathBuf → Except IoError (List Nat))
       (gzipFn : List Nat → List Nat) (mimeParse : String → Option String)
       (canonical : PathBuf) (contents : List Nat) (m : Method) (p : String),
      fs canonical = .ok contents → contents.length > MIN_GZIP_SIZE →
      gzipAccepted ⟨m, p, some [⟨Encoding.gzip, 0⟩]⟩ = true ∧
      read_file fs gzipFn mimeParse canonical
          (gzipAccepted ⟨m, p, some [⟨Encoding.gzip, 0⟩]⟩) =
        .ok { status := 200
              contentLength := some contents.length
              contentType := content_type mimeParse canonical
              contentEncodingGzip := true
              body := gzipFn contents }) := by
  refine ⟨fun m p items => rfl, ?_⟩
  intro fs gzipFn mimeParse canonical contents m p hfs hlen
  refine ⟨rfl, ?_⟩
  simp [read_file, hfs, hlen, gzipAccepted]

/-- Closed instance of `gzip_accept_ignores_quality`: a 1025-byte file
requested with `Accept-Encoding: gzip;q=0` is gzip-compressed. -/
theorem gzip_accept_ignores_quality_witness :
    gzipAccepted ⟨Method.get, "/f", some [⟨Encoding.gzip, 0⟩]⟩ = true ∧
    read_file (fun _ => .ok (List.replicate (MIN_GZIP_SIZE + 1) 0))
        (fun _ => [4, 2]) (fun _ => none) ⟨true, ["f"]⟩
        (gzipAccepted ⟨Method.get, "/f", some [⟨Encoding.gzip, 0⟩]⟩) =
      .ok { status := 200
            contentLength := some (List.replicate (MIN_GZIP_SIZE + 1) (0 : Nat)).length
            contentType := content_type (fun _ => none) ⟨true, ["f"]⟩
            contentEncodingGzip := true
            body := [4, 2] } :=
  gzip_accept_ignores_quality.2 (fun _ => .ok (List.replicate (MIN_GZIP_SIZE + 1) 0))
    (fun _ => [4, 2]) (fun _ => none) ⟨true, ["f"]⟩
    (List.replicate (MIN_GZIP_SIZE + 1) 0) Method.get "/f" rfl
    (by rw [List.length_replicate]; exact Nat.lt_succ_self _)
